import Mathlib

/-!
Verification model of the music-tag-editor codec layer (`music_tag_bot.py`).

The shallow embedding covers the three codec-layer operations
(`MusicTagEditor.get_tags`, `MusicTagEditor.set_tag`, `MusicTagEditor.set_cover`),
the extension-based format detection done in `handle_audio_file`, and the image
normalization step of `set_cover`.

The embedding models the on-disk tag state of a file at the level observable
through the mutagen library calls used by the source:

* MP3 (mutagen.mp3.MP3 / mutagen.id3.ID3): an optional ID3 container holding the
  five text frames TIT2/TPE1/TALB/TDRC/TCON plus APIC picture frames.  A loaded
  text frame stringifies to its stored text; a loaded APIC frame is stored in
  the ID3 dictionary under the key "APIC:" ++ desc (the frame HashKey).  TDRC is
  a timestamp frame: its text is parsed by ID3TimeStamp and re-rendered, so the
  state stores the parsed timestamp, not the raw string.
* FLAC (mutagen.flac.FLAC): Vorbis-comment fields (lists of string values; the
  empty list stands for an absent field) plus a list of embedded pictures.
* MP4 (mutagen.mp4.MP4): per-field text atoms (lists of values) plus the `covr`
  atom holding a list of cover blobs.
* Ogg Vorbis / Ogg Opus (mutagen.oggvorbis / mutagen.oggopus): Vorbis-comment
  fields, the `metadata_block_picture` field (values abstracted to the pictures
  they base64-encode), the legacy `coverart` field, and any other comment
  fields written through the unknown-tag-name code path.

Frames/fields the source never reads or writes are omitted from the state:
they cannot affect any observable of the three operations (the one exception,
ID3 dictionary truthiness, is noted where it is used).
-/

/-! ## Python string helpers (os.path.splitext, str.lower) -/

/-- ASCII lowercasing of one character.  `str.lower()` in the source is applied
to a filename extension; only ASCII letters matter for membership in the fixed
extension set, so the model lowercases ASCII letters and leaves every other
character unchanged. -/
def lowerChar (c : Char) : Char :=
  if 'A' ≤ c ∧ c ≤ 'Z' then Char.ofNat (c.toNat + 32) else c

/-- Python `str.lower()` restricted to ASCII case folding (see `lowerChar`). -/
def pyLower (s : String) : String :=
  String.mk (s.toList.map lowerChar)

/-- Split a character list at every occurrence of `sep`. -/
def splitCharsOn (sep : Char) : List Char → List (List Char)
  | [] => [[]]
  | c :: rest =>
    let r := splitCharsOn sep rest
    if c = sep then [] :: r
    else match r with
      | [] => [[c]]
      | g :: gs => (c :: g) :: gs

/-- The last element of a list, or `d` when the list is empty. -/
def lastD {α : Type} (d : α) : List α → α
  | [] => d
  | [a] => a
  | _ :: b :: rest => lastD d (b :: rest)

/-- Model of `os.path.splitext(p)[1]` for POSIX paths: the extension starts at the last
dot of the final path component, provided some character of that component
before the dot is not itself a dot (so ".bashrc" has no extension). -/
def splitextExt (p : String) : String :=
  let base := lastD [] (splitCharsOn '/' p.toList)
  let parts := splitCharsOn '.' base
  match parts with
  | [] => ""
  | [_] => ""
  | _ :: _ :: _ =>
    if (parts.dropLast).all (· = []) then ""
    else String.mk ('.' :: lastD [] parts)

/-! ## Format detection (`handle_audio_file`, lines 270-277) -/

/-- The five supported container kinds. -/
inductive FormatKind
  | mp3
  | flac
  | m4a
  | ogg
  | opus
deriving DecidableEq, Repr

/-- The extension the source associates with each kind. -/
def kindExt : FormatKind → String
  | .mp3 => ".mp3"
  | .flac => ".flac"
  | .m4a => ".m4a"
  | .ogg => ".ogg"
  | .opus => ".opus"

/-- The fixed extension list checked in `handle_audio_file`:
`if ext not in [".mp3", ".flac", ".m4a", ".ogg", ".opus"]`. -/
def supportedExts : List String :=
  [".mp3", ".flac", ".m4a", ".ogg", ".opus"]

/-- The value `ext = os.path.splitext(filename)[1].lower()` computed by the source. -/
def fileExtOf (filename : String) : String :=
  pyLower (splitextExt filename)

/-- Format detection: the lowercased extension matched against the fixed set;
`none` is the `UnsupportedFormat` rejection. -/
def detect (filename : String) : Option FormatKind :=
  let ext := fileExtOf filename
  if ext = ".mp3" then some .mp3
  else if ext = ".flac" then some .flac
  else if ext = ".m4a" then some .m4a
  else if ext = ".ogg" then some .ogg
  else if ext = ".opus" then some .opus
  else none

/-! ## Image normalization (`set_cover`, lines 161-176)

`set_cover` decodes the image with PIL, converts the mode to "RGB" unless it
already is "RGB" or "RGBA", shrinks it with `Image.thumbnail((1000, 1000),
LANCZOS)` when a dimension exceeds 1000, and re-encodes it as a quality-90
JPEG.  Pillow's JPEG encoder raises `OSError` for mode "RGBA" (it cannot write
an alpha channel), and `Image.open` raises for undecodable bytes; either
exception is caught by `set_cover`, which then returns `False`. -/

/-- An input image as PIL presents it: whether `Image.open` can decode it, its
mode string, and its pixel dimensions. -/
structure RawImage where
  decodable : Bool
  mode : String
  width : Nat
  height : Nat
deriving DecidableEq, Repr

/-- The normalized cover produced by the `img.save(..., format="JPEG",
quality=90)` step, abstracted to its dimensions and quality. -/
structure Jpeg where
  width : Nat
  height : Nat
  quality : Nat
deriving DecidableEq, Repr

/-- Python `math.ceil(n / d)` for naturals (with positive `d`): the floor quotient,
plus one when the division is not exact. -/
def ceilDiv (n d : Nat) : Nat := n / d + (if n % d = 0 then 0 else 1)

/-- Pillow `Image.thumbnail` rounding for the bounded dimension, branch
`x / y >= aspect` (here `h ≥ w`, target box 1000×1000): the exact value is
`1000 * w / h`; `round_aspect` picks between its floor and ceiling the value
minimizing `|aspect - n / y|` (the floor on ties, as Python `min` keeps the
first argument), then clamps to at least 1.  The comparison is done in exact
rational arithmetic: `|w/h - n/1000|` ordered via `|1000*w - n*h|`. -/
def roundAspectWidth (w h : Nat) : Nat :=
  let fl := 1000 * w / h
  let ce := ceilDiv (1000 * w) h
  let n := if 1000 * w - fl * h ≤ ce * h - 1000 * w then fl else ce
  max n 1

/-- Pillow `Image.thumbnail` rounding for the other branch (`w > h`): the exact
value is `1000 * h / w` and the key is `0` when `n = 0`, otherwise
`|aspect - x/n| = |w*n - 1000*h| / (h*n)`; floor wins ties.  Exact rational
comparison as in `roundAspectWidth`. -/
def roundAspectHeight (w h : Nat) : Nat :=
  let fl := 1000 * h / w
  let ce := ceilDiv (1000 * h) w
  let keyFlLe : Bool :=
    if fl = 0 then true
    else decide ((1000 * h - w * fl) * ce ≤ (w * ce - 1000 * h) * fl)
  let n := if keyFlLe then fl else ce
  max n 1

/-- The size computed by `img.thumbnail((1000, 1000), ...)`: unchanged when the
image already fits the box, otherwise scaled so one side is 1000 and the other
is the aspect-rounded value. -/
def pilThumbnailSize (w h : Nat) : Nat × Nat :=
  if 1000 ≥ w ∧ 1000 ≥ h then (w, h)
  else if h ≥ w then (roundAspectWidth w h, 1000)
  else (1000, roundAspectHeight w h)

/-- The dimensions of the cover after the resize step of `set_cover`:
`if img.width > 1000 or img.height > 1000: img.thumbnail((1000, 1000), ...)`. -/
def coverDims (w h : Nat) : Nat × Nat :=
  if w > 1000 ∨ h > 1000 then pilThumbnailSize w h else (w, h)

/-- The image-normalizer step of `set_cover` (lines 161-176): decode, mode
conversion, resize, JPEG re-encode.  `none` is the exception path (undecodable
input, or mode "RGBA" reaching the JPEG encoder, which Pillow rejects). -/
def normalizeImage (img : RawImage) : Option Jpeg :=
  if !img.decodable then none
  else
    let mode := if img.mode ≠ "RGB" ∧ img.mode ≠ "RGBA" then "RGB" else img.mode
    let dims := coverDims img.width img.height
    if mode = "RGBA" then none
    else some ⟨dims.1, dims.2, 90⟩

/-! ## ID3 timestamps (mutagen `ID3TimeStamp`)

The MP3 year is stored in a TDRC frame.  mutagen parses the assigned string
with `ID3TimeStamp.set_text`: it splits `text + ":::::"` on the regular
expression `[-T:/.]|\s+`, takes the first six parts as year, month, day, hour,
minute and second, and `int()`-parses each (a failed parse leaves the part
absent).  Rendering (`get_text`, used both when saving and when `str()` is
applied to the loaded frame) emits the parts up to the first absent one,
zero-padded (`%04d` for the year, `%02d` for the rest) and joined with the
separators `-`, `-`, `" "`, `:`, `:`. -/

/-- A character splitting an ID3 timestamp: one of `-T:/.` . -/
def isTsSep (c : Char) : Bool :=
  c = '-' ∨ c = 'T' ∨ c = ':' ∨ c = '/' ∨ c = '.'

/-- Python `\s` whitespace (ASCII range). -/
def isPySpace (c : Char) : Bool :=
  c = ' ' ∨ c = '\t' ∨ c = '\n' ∨ c = '\r' ∨ c = '\x0b' ∨ c = '\x0c'

/-- Split on the regex `[-T:/.]|\s+`: every separator character splits, with a
whole whitespace run acting as a single separator.  The flag records whether
the previous character belonged to a whitespace run (so further whitespace
extends that separator instead of starting a new one). -/
def tsSplitAux : Bool → List Char → List (List Char)
  | _, [] => [[]]
  | inWs, c :: rest =>
    if isTsSep c then [] :: tsSplitAux false rest
    else if isPySpace c then
      if inWs then tsSplitAux true rest
      else [] :: tsSplitAux true rest
    else match tsSplitAux false rest with
      | [] => [[c]]
      | g :: gs => (c :: g) :: gs

/-- Split on the regex `[-T:/.]|\s+` (see `tsSplitAux`). -/
def tsSplit (cs : List Char) : List (List Char) :=
  tsSplitAux false cs

/-- Decimal value of a digit list (most significant first). -/
def digitsVal : List Char → Nat
  | [] => 0
  | c :: rest => (c.toNat - '0'.toNat) * 10 ^ rest.length + digitsVal rest

/-- Python `int()` on a timestamp part, simplified to an optional leading `'+'`
followed by ASCII digits, with single underscores allowed between digits (the
parts can contain no sign `'-'`, no whitespace and no `.`, since those all act
as separators; non-ASCII digits are not modelled). -/
def pyInt? (s : List Char) : Option Nat :=
  let ds := match s with
    | '+' :: r => r
    | r => r
  let core := ds.filter (· ≠ '_')
  if ds ≠ [] ∧ core ≠ [] ∧ core.all Char.isDigit ∧
      ds.head? ≠ some '_' ∧ ds.getLast? ≠ some '_' ∧
      (ds.zip ds.tail).all (fun p => ¬(p.1 = '_' ∧ p.2 = '_')) then
    some (digitsVal core)
  else none

/-- The parsed fields of an ID3 timestamp. -/
structure ID3TimeStamp where
  year : Option Nat
  month : Option Nat
  day : Option Nat
  hour : Option Nat
  minute : Option Nat
  second : Option Nat
deriving DecidableEq, Repr

/-- Parsing, as in `ID3TimeStamp.set_text`: split `v ++ ":::::"`, take six parts, `int()` each. -/
def parseTS (v : String) : ID3TimeStamp :=
  let parts := (tsSplit (v.toList ++ [':', ':', ':', ':', ':'])).take 6
  let get := fun i => pyInt? (parts.getD i [])
  ⟨get 0, get 1, get 2, get 3, get 4, get 5⟩

/-- Zero-pad the decimal rendering of `n` to `width` characters (`%0*d`). -/
def padNum (width n : Nat) : String :=
  let s := toString n
  String.mk (List.replicate (width - s.length) '0') ++ s

/-- Rendering, as in `ID3TimeStamp.get_text`: the fields up to the first absent one. -/
def tsText (t : ID3TimeStamp) : String :=
  match t.year with
  | none => ""
  | some y =>
    match t.month with
    | none => padNum 4 y
    | some mo =>
      match t.day with
      | none => padNum 4 y ++ "-" ++ padNum 2 mo
      | some d =>
        match t.hour with
        | none => padNum 4 y ++ "-" ++ padNum 2 mo ++ "-" ++ padNum 2 d
        | some hh =>
          match t.minute with
          | none => padNum 4 y ++ "-" ++ padNum 2 mo ++ "-" ++ padNum 2 d
              ++ " " ++ padNum 2 hh
          | some mi =>
            match t.second with
            | none => padNum 4 y ++ "-" ++ padNum 2 mo ++ "-" ++ padNum 2 d
                ++ " " ++ padNum 2 hh ++ ":" ++ padNum 2 mi
            | some s => padNum 4 y ++ "-" ++ padNum 2 mo ++ "-" ++ padNum 2 d
                ++ " " ++ padNum 2 hh ++ ":" ++ padNum 2 mi ++ ":" ++ padNum 2 s

/-! ## Container states -/

/-- An embedded picture as the codecs describe it (ID3 APIC frame or FLAC
`Picture`): picture type, MIME type, description and payload, the payload
abstracted to the normalized image descriptor. -/
structure PictureBlock where
  picType : Nat
  mime : String
  desc : String
  data : Jpeg
deriving DecidableEq, Repr

/-- The ID3 container of an MP3 file, at the granularity the source observes: the
five text frames it reads and writes, plus the APIC picture frames.  Other frame
kinds are omitted; they influence no observable of the three operations. -/
structure Id3 where
  tit2 : Option String
  tpe1 : Option String
  talb : Option String
  tdrc : Option ID3TimeStamp
  tcon : Option String
  apics : List PictureBlock
deriving DecidableEq, Repr

/-- The empty ID3 container created by `audio.add_tags()`. -/
def emptyId3 : Id3 := ⟨none, none, none, none, none, []⟩

/-- An MP3 file: `tags` is `none` when the file has no ID3 container. -/
structure Mp3File where
  tags : Option Id3
deriving DecidableEq, Repr

/-- A FLAC file: Vorbis-comment fields (a list of values per field, `[]` when
the field is absent) and the picture list. -/
structure FlacFile where
  title : List String
  artist : List String
  album : List String
  date : List String
  genre : List String
  pictures : List PictureBlock
deriving DecidableEq, Repr

/-- An MP4/M4A file: the five text atoms read and written by the source
(`©nam/©ART/©alb/©day/©gen`, each a list of values) and the `covr` atom
(a list of cover blobs, `[]` when absent). -/
structure Mp4File where
  nam : List String
  art : List String
  alb : List String
  day : List String
  gen : List String
  covr : List Jpeg
deriving DecidableEq, Repr

/-- An Ogg Vorbis or Ogg Opus stream: Vorbis-comment fields, the
`metadata_block_picture` field (its base64 values abstracted to opaque
strings), the legacy `coverart` field, and the remaining comment fields as an
association list (reachable through the unknown-tag-name write path). -/
structure OggFile where
  title : List String
  artist : List String
  album : List String
  date : List String
  genre : List String
  mbp : List String
  coverart : List String
  extra : List (String × List String)
deriving DecidableEq, Repr

/-- The parsed content of a file on disk: one of the five container kinds, or
`other` for any byte stream none of the five parsers accepts (each mutagen
constructor raises on a stream of the wrong kind). -/
inductive AudioContent
  | mp3 (f : Mp3File)
  | flac (f : FlacFile)
  | mp4 (f : Mp4File)
  | oggVorbis (f : OggFile)
  | oggOpus (f : OggFile)
  | other
deriving DecidableEq, Repr

/-- A file on disk: its path (the operations dispatch on its extension) and its
parsed content. -/
structure DiskFile where
  path : String
  content : AudioContent
deriving DecidableEq, Repr

/-- The dictionary built by `get_tags`: a key is absent (`none`) when the
matching branch never ran. -/
structure TagRecord where
  title : Option String
  artist : Option String
  album : Option String
  year : Option String
  genre : Option String
  has_cover : Option Bool
deriving DecidableEq, Repr

/-- The record returned when no extension branch matches: `tags = {}`. -/
def emptyRecord : TagRecord := ⟨none, none, none, none, none, none⟩

/-! ## Reading tags (`MusicTagEditor.get_tags`, lines 50-97) -/

/-- The value `str(audio.get(FRAME, "Not set"))`: the default string, or the stored text
of the frame. -/
def id3Text (o : Option String) : String := o.getD "Not set"

/-- Truthiness of a loaded ID3 container (`if audio.tags`): a dictionary is
truthy when it holds at least one frame.  Unmodelled frame kinds could only
make a dictionary truthy; they matter only when the dictionary also holds an
APIC frame with empty description, and such a frame makes it truthy already. -/
def id3Truthy (t : Id3) : Bool :=
  t.tit2.isSome || t.tpe1.isSome || t.talb.isSome || t.tdrc.isSome ||
    t.tcon.isSome || !t.apics.isEmpty

/-- The MP3 cover check `"APIC:" in audio.tags if audio.tags else False`.
Dictionary membership is an exact key lookup, and a loaded APIC frame sits
under the key `"APIC:" ++ desc` (its HashKey), so the literal key `"APIC:"`
is present exactly when some APIC frame has an empty description. -/
def mp3HasCover (f : Mp3File) : Bool :=
  match f.tags with
  | none => false
  | some t => id3Truthy t && t.apics.any (fun p => p.desc = "")

/-- The MP3 branch of `get_tags`. -/
def mp3TagsRec (f : Mp3File) : TagRecord :=
  { title := some (id3Text (f.tags.bind Id3.tit2))
    artist := some (id3Text (f.tags.bind Id3.tpe1))
    album := some (id3Text (f.tags.bind Id3.talb))
    year := some (match f.tags.bind Id3.tdrc with
      | none => "Not set"
      | some t => tsText t)
    genre := some (id3Text (f.tags.bind Id3.tcon))
    has_cover := some (mp3HasCover f) }

/-- The value `audio.get(key, ["Not set"])[0]` for a list-valued field. -/
def firstVal (l : List String) : String := l.headD "Not set"

/-- The FLAC branch of `get_tags`. -/
def flacTagsRec (f : FlacFile) : TagRecord :=
  { title := some (firstVal f.title)
    artist := some (firstVal f.artist)
    album := some (firstVal f.album)
    year := some (firstVal f.date)
    genre := some (firstVal f.genre)
    has_cover := some (decide (0 < f.pictures.length)) }

/-- The M4A branch of `get_tags`. -/
def mp4TagsRec (f : Mp4File) : TagRecord :=
  { title := some (firstVal f.nam)
    artist := some (firstVal f.art)
    album := some (firstVal f.alb)
    year := some (firstVal f.day)
    genre := some (firstVal f.gen)
    has_cover := some (!f.covr.isEmpty) }

/-- The Ogg/Opus branch of `get_tags` (`"metadata_block_picture" in audio or
"coverart" in audio`). -/
def oggTagsRec (f : OggFile) : TagRecord :=
  { title := some (firstVal f.title)
    artist := some (firstVal f.artist)
    album := some (firstVal f.album)
    year := some (firstVal f.date)
    genre := some (firstVal f.genre)
    has_cover := some (!f.mbp.isEmpty || !f.coverart.isEmpty) }

/-- Model of `MusicTagEditor.get_tags`: dispatch on the lowercased path extension; a
parse failure (content of a kind other than the extension's parser) is the
caught-exception path returning `None`; an extension outside the five supported
ones leaves the initial empty dictionary untouched. -/
def get_tags (d : DiskFile) : Option TagRecord :=
  let ext := fileExtOf d.path
  if ext = ".mp3" then
    match d.content with
    | .mp3 f => some (mp3TagsRec f)
    | _ => none
  else if ext = ".flac" then
    match d.content with
    | .flac f => some (flacTagsRec f)
    | _ => none
  else if ext = ".m4a" then
    match d.content with
    | .mp4 f => some (mp4TagsRec f)
    | _ => none
  else if ext = ".ogg" then
    match d.content with
    | .oggVorbis f => some (oggTagsRec f)
    | _ => none
  else if ext = ".opus" then
    match d.content with
    | .oggOpus f => some (oggTagsRec f)
    | _ => none
  else some emptyRecord

/-! ## Writing one field (`MusicTagEditor.set_tag`, lines 100-154) -/

/-- The MP3 branch of `set_tag`: create the ID3 container when absent
(`audio.add_tags()`), then set the frame selected by the `if/elif` chain on
`tag_name` (an unrecognized name sets nothing but still saves). -/
def mp3SetTag (f : Mp3File) (tag value : String) : Mp3File :=
  let t := f.tags.getD emptyId3
  let t' :=
    if tag = "title" then { t with tit2 := some value }
    else if tag = "artist" then { t with tpe1 := some value }
    else if tag = "album" then { t with talb := some value }
    else if tag = "year" then { t with tdrc := some (parseTS value) }
    else if tag = "genre" then { t with tcon := some value }
    else t
  { tags := some t' }

/-- The FLAC branch of `set_tag`: `audio[tag_name] = value` for the four names
in the membership list, `audio["date"] = value` for `"year"`; any other name
sets nothing (the file is still saved). -/
def flacSetTag (f : FlacFile) (tag value : String) : FlacFile :=
  if tag = "title" then { f with title := [value] }
  else if tag = "artist" then { f with artist := [value] }
  else if tag = "album" then { f with album := [value] }
  else if tag = "genre" then { f with genre := [value] }
  else if tag = "year" then { f with date := [value] }
  else f

/-- The M4A branch of `set_tag`: `audio[tag_map[tag_name]] = value`.  A name
outside `tag_map` raises `KeyError` before anything is modified; `none` is that
exception path. -/
def mp4SetTag (f : Mp4File) (tag value : String) : Option Mp4File :=
  if tag = "title" then some { f with nam := [value] }
  else if tag = "artist" then some { f with art := [value] }
  else if tag = "album" then some { f with alb := [value] }
  else if tag = "year" then some { f with day := [value] }
  else if tag = "genre" then some { f with gen := [value] }
  else none

/-- The mutagen Vorbis-comment key validation: printable ASCII between 0x20 and
0x7D, excluding `'='`, and nonempty. -/
def validVorbisKey (k : String) : Bool :=
  !k.isEmpty && k.toList.all (fun c => ' ' ≤ c ∧ c ≤ '}' ∧ c ≠ '=')

/-- Replace the binding of `k` in an association list (append when absent). -/
def setAssoc (l : List (String × List String)) (k : String) (v : List String) :
    List (String × List String) :=
  match l with
  | [] => [(k, v)]
  | (k', v') :: rest =>
    if k' = k then (k, v) :: rest else (k', v') :: setAssoc rest k v

/-- The Ogg/Opus branch of `set_tag`: `audio["date"] = value` when the name is
`"year"`, otherwise `audio[tag_name] = value` for ANY name.  The Vorbis-comment
dictionary lowercases the key and validates it (an invalid key raises
`ValueError`, the `none` path); an unrecognized but valid key is stored as a
custom comment field. -/
def oggSetTag (f : OggFile) (tag value : String) : Option OggFile :=
  let k := if tag = "year" then "date" else pyLower tag
  if !validVorbisKey k then none
  else if k = "title" then some { f with title := [value] }
  else if k = "artist" then some { f with artist := [value] }
  else if k = "album" then some { f with album := [value] }
  else if k = "date" then some { f with date := [value] }
  else if k = "genre" then some { f with genre := [value] }
  else if k = "metadata_block_picture" then some { f with mbp := [value] }
  else if k = "coverart" then some { f with coverart := [value] }
  else some { f with extra := setAssoc f.extra k [value] }

/-- Model of `MusicTagEditor.set_tag`: dispatch on the lowercased path extension;
returns the resulting file state and the boolean the function returns (`False`
exactly on the caught-exception path, which leaves the file unmodified).  An
extension outside the five supported ones runs no branch and returns `True`. -/
def set_tag (d : DiskFile) (tag value : String) : DiskFile × Bool :=
  let ext := fileExtOf d.path
  if ext = ".mp3" then
    match d.content with
    | .mp3 f => ({ d with content := .mp3 (mp3SetTag f tag value) }, true)
    | _ => (d, false)
  else if ext = ".flac" then
    match d.content with
    | .flac f => ({ d with content := .flac (flacSetTag f tag value) }, true)
    | _ => (d, false)
  else if ext = ".m4a" then
    match d.content with
    | .mp4 f =>
      match mp4SetTag f tag value with
      | some f' => ({ d with content := .mp4 f' }, true)
      | none => (d, false)
    | _ => (d, false)
  else if ext = ".ogg" then
    match d.content with
    | .oggVorbis f =>
      match oggSetTag f tag value with
      | some f' => ({ d with content := .oggVorbis f' }, true)
      | none => (d, false)
    | _ => (d, false)
  else if ext = ".opus" then
    match d.content with
    | .oggOpus f =>
      match oggSetTag f tag value with
      | some f' => ({ d with content := .oggOpus f' }, true)
      | none => (d, false)
    | _ => (d, false)
  else (d, true)

/-! ## Writing the cover (`MusicTagEditor.set_cover`, lines 156-235) -/

/-- The picture structure all format branches build: type 3 (front cover),
MIME "image/jpeg", description "Cover", payload the normalized image. -/
def coverPicture (j : Jpeg) : PictureBlock :=
  ⟨3, "image/jpeg", "Cover", j⟩

/-- The MP3 branch of `set_cover`: create the container when absent, remove
every APIC frame (`audio.tags.delall("APIC")` deletes all keys with the
`"APIC:"` prefix), insert the new APIC frame with `desc="Cover"`. -/
def mp3SetCover (f : Mp3File) (j : Jpeg) : Mp3File :=
  let t := f.tags.getD emptyId3
  { tags := some { t with apics := [coverPicture j] } }

/-- The FLAC branch of `set_cover`: `audio.clear_pictures()` then
`audio.add_picture(picture)`. -/
def flacSetCover (f : FlacFile) (j : Jpeg) : FlacFile :=
  { f with pictures := [coverPicture j] }

/-- The M4A branch of `set_cover`: `audio["covr"] = [MP4Cover(image_data, ...)]`
replaces the cover atom with a one-element list. -/
def mp4SetCover (f : Mp4File) (j : Jpeg) : Mp4File :=
  { f with covr := [j] }

/-- Stands for `base64.b64encode(picture.write()).decode("ascii")`: the
byte-level FLAC `Picture` encoding is abstracted, keeping the fields the
structure carries. -/
def oggPictureValue (p : PictureBlock) : String :=
  "picture-" ++ toString p.picType ++ "-" ++ p.mime ++ "-" ++ p.desc ++ "-"
    ++ toString p.data.width ++ "x" ++ toString p.data.height
    ++ "q" ++ toString p.data.quality

/-- The Ogg/Opus branch of `set_cover`:
`audio["metadata_block_picture"] = picture_data` replaces that field with the
single new value.  The legacy `coverart` field is not touched. -/
def oggSetCover (f : OggFile) (j : Jpeg) : OggFile :=
  { f with mbp := [oggPictureValue (coverPicture j)] }

/-- Model of `MusicTagEditor.set_cover`: the image-normalizer step runs first (its
exception path returns `False` before any codec dispatch); then dispatch on
the lowercased path extension as in `set_tag`.  An extension outside the five
supported ones runs no branch and returns `True`. -/
def set_cover (d : DiskFile) (img : RawImage) : DiskFile × Bool :=
  match normalizeImage img with
  | none => (d, false)
  | some j =>
    let ext := fileExtOf d.path
    if ext = ".mp3" then
      match d.content with
      | .mp3 f => ({ d with content := .mp3 (mp3SetCover f j) }, true)
      | _ => (d, false)
    else if ext = ".flac" then
      match d.content with
      | .flac f => ({ d with content := .flac (flacSetCover f j) }, true)
      | _ => (d, false)
    else if ext = ".m4a" then
      match d.content with
      | .mp4 f => ({ d with content := .mp4 (mp4SetCover f j) }, true)
      | _ => (d, false)
    else if ext = ".ogg" then
      match d.content with
      | .oggVorbis f => ({ d with content := .oggVorbis (oggSetCover f j) }, true)
      | _ => (d, false)
    else if ext = ".opus" then
      match d.content with
      | .oggOpus f => ({ d with content := .oggOpus (oggSetCover f j) }, true)
      | _ => (d, false)
    else (d, true)

/-! ## Derived observables used by the claims -/

/-- The five-field key set of the spec. -/
inductive FieldKey
  | title
  | artist
  | album
  | year
  | genre
deriving DecidableEq, Repr

/-- The tag name string the conversation layer passes to `set_tag` for a field
key (the callback data minus the `edit_` marker). -/
def FieldKey.tagName : FieldKey → String
  | .title => "title"
  | .artist => "artist"
  | .album => "album"
  | .year => "year"
  | .genre => "genre"

/-- Project one field out of a `TagRecord`. -/
def TagRecord.field (r : TagRecord) : FieldKey → Option String
  | .title => r.title
  | .artist => r.artist
  | .album => r.album
  | .year => r.year
  | .genre => r.genre

/-- The number of picture-equivalent structures embedded in a container:
APIC frames, FLAC pictures, `covr` entries, and for Ogg both
`metadata_block_picture` and legacy `coverart` values. -/
def pictureCount : AudioContent → Nat
  | .mp3 f => (f.tags.map (fun t => t.apics.length)).getD 0
  | .flac f => f.pictures.length
  | .mp4 f => f.covr.length
  | .oggVorbis f => f.mbp.length + f.coverart.length
  | .oggOpus f => f.mbp.length + f.coverart.length
  | .other => 0

/-- Whether the parsed content is of the given kind. -/
def contentIs : AudioContent → FormatKind → Bool
  | .mp3 _, .mp3 => true
  | .flac _, .flac => true
  | .mp4 _, .m4a => true
  | .oggVorbis _, .ogg => true
  | .oggOpus _, .opus => true
  | _, _ => false

/-- A disk file of kind `k`: the path's lowercased extension is the one the
source maps to `k`, and the content parses as kind `k`. -/
def wellFormed (d : DiskFile) (k : FormatKind) : Prop :=
  fileExtOf d.path = kindExt k ∧ contentIs d.content k = true

/-! ## Arithmetic facts about the thumbnail rounding -/

/-- The floor quotient bounds the exact ratio from below within one unit. -/
theorem floorBounds (n d : Nat) (hd : 0 < d) :
    n / d * d ≤ n ∧ n < n / d * d + d := by
  have hdm := Nat.div_add_mod n d
  have hml := Nat.mod_lt n hd
  exact ⟨Nat.div_mul_le_self n d, by nlinarith [hdm, hml]⟩

/-- The ceiling quotient bounds the exact ratio from above within one unit. -/
theorem ceilDivBounds (n d : Nat) (hd : 0 < d) :
    n ≤ ceilDiv n d * d ∧ ceilDiv n d * d < n + d := by
  unfold ceilDiv
  have hdm := Nat.div_add_mod n d
  have hml := Nat.mod_lt n hd
  by_cases h : n % d = 0
  · rw [if_pos h]
    exact ⟨by nlinarith [hdm], by nlinarith [hdm]⟩
  · rw [if_neg h]
    have h1 : 1 ≤ n % d := Nat.one_le_iff_ne_zero.mpr h
    exact ⟨by nlinarith [hdm], by nlinarith [hdm]⟩

/-- Bounds for the rounded width in the `h ≥ w` thumbnail branch: it is in
`[1, 1000]` and `roundAspectWidth w h * h` is within `h` of `1000 * w` (the
aspect ratio is preserved up to the integer rounding of one dimension). -/
theorem roundAspectWidth_spec (w h : Nat) (hw : 0 < w) (hwh : w ≤ h) :
    1 ≤ roundAspectWidth w h ∧ roundAspectWidth w h ≤ 1000 ∧
    roundAspectWidth w h * h ≤ 1000 * w + h ∧
    1000 * w ≤ roundAspectWidth w h * h + h := by
  have hh : 0 < h := Nat.lt_of_lt_of_le hw hwh
  obtain ⟨f1, f2⟩ := floorBounds (1000 * w) h hh
  obtain ⟨g1, g2⟩ := ceilDivBounds (1000 * w) h hh
  have hwle : 1000 * w ≤ 1000 * h := Nat.mul_le_mul_left 1000 hwh
  unfold roundAspectWidth
  dsimp only
  set n := if 1000 * w - 1000 * w / h * h ≤ ceilDiv (1000 * w) h * h - 1000 * w
    then 1000 * w / h else ceilDiv (1000 * w) h with hn
  have hcases : n = 1000 * w / h ∨ n = ceilDiv (1000 * w) h := by
    rw [hn]
    by_cases hb : 1000 * w - 1000 * w / h * h ≤ ceilDiv (1000 * w) h * h - 1000 * w
    · rw [if_pos hb]; exact Or.inl rfl
    · rw [if_neg hb]; exact Or.inr rfl
  rcases hcases with hc | hc <;> rw [hc]
  · rcases Nat.eq_zero_or_pos (1000 * w / h) with hz | hp
    · rw [hz] at f2 ⊢
      have hsm : 1000 * w < h := by omega
      have hm1 : max 0 1 = 1 := rfl
      rw [hm1]
      refine ⟨le_refl 1, by omega, by nlinarith, by nlinarith⟩
    · rw [Nat.max_eq_left hp]
      have hb : 1000 * w / h ≤ 1000 := by
        by_contra hgt
        push_neg at hgt
        nlinarith [f1, hwle, hgt, hh]
      exact ⟨hp, hb, by nlinarith [f1], by nlinarith [f2]⟩
  · have hcp : 0 < ceilDiv (1000 * w) h := by
      by_contra hz
      push_neg at hz
      interval_cases h0 : ceilDiv (1000 * w) h
      nlinarith [g1, hw]
    rw [Nat.max_eq_left hcp]
    have hb : ceilDiv (1000 * w) h ≤ 1000 := by
      by_contra hgt
      push_neg at hgt
      nlinarith [g2, hwle, hgt, hh]
    exact ⟨hcp, hb, by nlinarith [g2], by nlinarith [g1]⟩

/-- Bounds for the rounded height in the `w > h` thumbnail branch, mirror image
of `roundAspectWidth_spec`. -/
theorem roundAspectHeight_spec (w h : Nat) (hh : 0 < h) (hhw : h ≤ w) :
    1 ≤ roundAspectHeight w h ∧ roundAspectHeight w h ≤ 1000 ∧
    roundAspectHeight w h * w ≤ 1000 * h + w ∧
    1000 * h ≤ roundAspectHeight w h * w + w := by
  have hw : 0 < w := Nat.lt_of_lt_of_le hh hhw
  obtain ⟨f1, f2⟩ := floorBounds (1000 * h) w hw
  obtain ⟨g1, g2⟩ := ceilDivBounds (1000 * h) w hw
  have hwle : 1000 * h ≤ 1000 * w := Nat.mul_le_mul_left 1000 hhw
  unfold roundAspectHeight
  dsimp only
  set n := if (if 1000 * h / w = 0 then true
      else decide ((1000 * h - w * (1000 * h / w)) * ceilDiv (1000 * h) w ≤
        (w * ceilDiv (1000 * h) w - 1000 * h) * (1000 * h / w))) = true
    then 1000 * h / w else ceilDiv (1000 * h) w with hn
  have hcases : n = 1000 * h / w ∨ n = ceilDiv (1000 * h) w := by
    rw [hn]
    by_cases hb : (if 1000 * h / w = 0 then true
        else decide ((1000 * h - w * (1000 * h / w)) * ceilDiv (1000 * h) w ≤
          (w * ceilDiv (1000 * h) w - 1000 * h) * (1000 * h / w))) = true
    · rw [if_pos hb]; exact Or.inl rfl
    · rw [if_neg hb]; exact Or.inr rfl
  rcases hcases with hc | hc <;> rw [hc]
  · rcases Nat.eq_zero_or_pos (1000 * h / w) with hz | hp
    · rw [hz] at f2 ⊢
      have hsm : 1000 * h < w := by omega
      have hm1 : max 0 1 = 1 := rfl
      rw [hm1]
      refine ⟨le_refl 1, by omega, by nlinarith, by nlinarith⟩
    · rw [Nat.max_eq_left hp]
      have hb : 1000 * h / w ≤ 1000 := by
        by_contra hgt
        push_neg at hgt
        nlinarith [f1, hwle, hgt, hw]
      exact ⟨hp, hb, by nlinarith [f1], by nlinarith [f2]⟩
  · have hcp : 0 < ceilDiv (1000 * h) w := by
      by_contra hz
      push_neg at hz
      interval_cases h0 : ceilDiv (1000 * h) w
      nlinarith [g1, hh]
    rw [Nat.max_eq_left hcp]
    have hb : ceilDiv (1000 * h) w ≤ 1000 := by
      by_contra hgt
      push_neg at hgt
      nlinarith [g2, hwle, hgt, hw]
    exact ⟨hcp, hb, by nlinarith [g2], by nlinarith [g1]⟩

/-! ## Claim theorems -/

/-- C7: for every decodable image with a dimension exceeding 1000 pixels,
the resize step of `set_cover` yields dimensions that are positive, at most
1000 on both sides, and preserve the aspect ratio within integer rounding
(the cross products `x*h` and `w*y` differ by at most one rounding unit of the
scaled dimension, bounded by `max w h`); an image already inside the
1000×1000 box is left at its original dimensions (never upscaled). -/
theorem c7_thumbnail_bounds (w h : Nat) (hw : 0 < w) (hh : 0 < h) :
    ((w > 1000 ∨ h > 1000) →
      1 ≤ (coverDims w h).1 ∧ (coverDims w h).1 ≤ 1000 ∧
      1 ≤ (coverDims w h).2 ∧ (coverDims w h).2 ≤ 1000 ∧
      (coverDims w h).1 * h ≤ w * (coverDims w h).2 + max w h ∧
      w * (coverDims w h).2 ≤ (coverDims w h).1 * h + max w h) ∧
    (w ≤ 1000 → h ≤ 1000 → coverDims w h = (w, h)) := by
  constructor
  · intro hbig
    have hcd : coverDims w h = pilThumbnailSize w h := by
      unfold coverDims
      rw [if_pos hbig]
    rw [hcd]
    unfold pilThumbnailSize
    have hnot : ¬(1000 ≥ w ∧ 1000 ≥ h) := by omega
    rw [if_neg hnot]
    by_cases hwh : h ≥ w
    · rw [if_pos hwh]
      obtain ⟨a1, a2, a3, a4⟩ := roundAspectWidth_spec w h hw hwh
      have hmax : max w h = h := Nat.max_eq_right hwh
      rw [hmax]
      refine ⟨a1, a2, by omega, by omega, by nlinarith [a3], by nlinarith [a4]⟩
    · rw [if_neg hwh]
      have hhw : h ≤ w := by omega
      obtain ⟨a1, a2, a3, a4⟩ := roundAspectHeight_spec w h hh hhw
      have hmax : max w h = w := Nat.max_eq_left hhw
      rw [hmax]
      refine ⟨by omega, by omega, a1, a2, by nlinarith [a4], by nlinarith [a3]⟩
  · intro hw1000 hh1000
    unfold coverDims
    rw [if_neg (by omega)]

theorem c7_thumbnail_bounds_witness :
    ((coverDims 2000 1000).1 ≤ 1000 ∧ (coverDims 2000 1000).2 ≤ 1000) ∧
    coverDims 50 50 = (50, 50) := by
  have h1 := c7_thumbnail_bounds 2000 1000 (by decide) (by decide)
  have h2 := c7_thumbnail_bounds 50 50 (by decide) (by decide)
  exact ⟨⟨(h1.1 (by decide)).2.1, (h1.1 (by decide)).2.2.2.1⟩,
    h2.2 (by decide) (by decide)⟩

/-! ## Sample inputs used by the concrete theorems -/

/-- A decodable 600×600 full-color image. -/
def rgbImage : RawImage := ⟨true, "RGB", 600, 600⟩

/-- A decodable 600×600 image with an alpha channel. -/
def rgbaImage : RawImage := ⟨true, "RGBA", 600, 600⟩

/-- Bytes `Image.open` cannot decode. -/
def badImage : RawImage := ⟨false, "", 0, 0⟩

/-- An MP3 file with no ID3 container. -/
def sampleMp3 : DiskFile := ⟨"song.mp3", .mp3 ⟨none⟩⟩

/-- A FLAC file with no fields and no pictures. -/
def sampleFlac : DiskFile := ⟨"song.flac", .flac ⟨[], [], [], [], [], []⟩⟩

/-- An Ogg Vorbis file whose only embedded art is a legacy `coverart` value. -/
def oggLegacy : DiskFile :=
  ⟨"song.ogg", .oggVorbis ⟨[], [], [], [], [], [], ["legacyjpeg"], []⟩⟩

/-- A file with an extension outside the supported set. -/
def wavFile : DiskFile := ⟨"song.wav", .other⟩

/-! ## Helper evaluation lemmas for the Ogg write path -/

theorem oggSetTag_title (f : OggFile) (v : String) :
    oggSetTag f "title" v = some { f with title := [v] } := rfl

theorem oggSetTag_artist (f : OggFile) (v : String) :
    oggSetTag f "artist" v = some { f with artist := [v] } := rfl

theorem oggSetTag_album (f : OggFile) (v : String) :
    oggSetTag f "album" v = some { f with album := [v] } := rfl

theorem oggSetTag_year (f : OggFile) (v : String) :
    oggSetTag f "year" v = some { f with date := [v] } := rfl

theorem oggSetTag_genre (f : OggFile) (v : String) :
    oggSetTag f "genre" v = some { f with genre := [v] } := rfl

/-- The value `get_tags` reports for a field after `set_tag` wrote `v` to it:
`v` itself, except the MP3 year, which goes through the ID3 timestamp parse
and re-render (`TDRC` stores a timestamp, not free text). -/
def storedFieldValue (k : FormatKind) (fk : FieldKey) (v : String) : String :=
  match k, fk with
  | .mp3, .year => tsText (parseTS v)
  | _, _ => v

/-- C1 (code-bug exhibit): on an MP3 file, `set_cover` reports success and
the container then holds exactly one APIC picture, yet `get_tags` reports
`has_cover = false`: the read path tests the exact dictionary key "APIC:",
which only an APIC frame with an empty description produces, while the write
path stores its frame with desc "Cover" (reloaded under the key "APIC:Cover").
The final conjunct shows the same write-then-read on a FLAC file does yield
`has_cover = true`, isolating the defect to the MP3 branch. -/
theorem c1_mp3_cover_not_seen :
    (set_cover sampleMp3 rgbImage).2 = true ∧
    pictureCount (set_cover sampleMp3 rgbImage).1.content = 1 ∧
    (get_tags (set_cover sampleMp3 rgbImage).1).map TagRecord.has_cover
      = some (some false) ∧
    (get_tags (set_cover sampleFlac rgbImage).1).map TagRecord.has_cover
      = some (some true) := by decide

/-- C2 (counterexample): writing year "hello" to an MP3 file reports
success, but a subsequent read returns "" (the empty rendering of the parsed
timestamp), not the written string. -/
theorem c2_mp3_year_counterexample :
    (set_tag sampleMp3 "year" "hello").2 = true ∧
    (get_tags (set_tag sampleMp3 "year" "hello").1).map TagRecord.year
      = some (some "") ∧
    (get_tags (set_tag sampleMp3 "year" "hello").1).map TagRecord.year
      ≠ some (some "hello") := by decide

/-- C2 (amended): for every well-formed file of each of the five kinds,
every field key and every value (empty and non-ASCII strings included),
`set_tag` succeeds and a subsequent `get_tags` returns exactly the written
value — except the MP3 year, which returns the ID3 timestamp normalization of
the value (so canonical year strings such as "2023" round-trip; arbitrary
strings need not). -/
theorem c2_field_roundtrip (d : DiskFile) (k : FormatKind) (fk : FieldKey)
    (v : String) (hd : wellFormed d k) :
    (set_tag d fk.tagName v).2 = true ∧
    (get_tags (set_tag d fk.tagName v).1).map (fun r => r.field fk)
      = some (some (storedFieldValue k fk v)) := by
  obtain ⟨hext, hcontent⟩ := hd
  cases k <;> simp only [kindExt] at hext <;>
    cases hc : d.content <;> rw [hc] at hcontent <;>
    simp only [contentIs, Bool.false_eq_true] at hcontent <;>
    cases fk <;>
    simp [set_tag, get_tags, hext, hc, FieldKey.tagName, storedFieldValue,
      mp3SetTag, mp3TagsRec, id3Text, TagRecord.field, emptyId3,
      flacSetTag, flacTagsRec, firstVal, mp4SetTag, mp4TagsRec,
      oggSetTag_title, oggSetTag_artist, oggSetTag_album, oggSetTag_year,
      oggSetTag_genre, oggTagsRec]

theorem c2_field_roundtrip_witness :
    (set_tag sampleFlac "genre" "Jazz").2 = true ∧
    (get_tags (set_tag sampleFlac "genre" "Jazz").1).map
        (fun r => r.field FieldKey.genre)
      = some (some (storedFieldValue FormatKind.flac FieldKey.genre "Jazz")) :=
  c2_field_roundtrip sampleFlac FormatKind.flac FieldKey.genre "Jazz"
    ⟨by decide, by decide⟩

/-- The number of legacy `coverart` values a container holds (only Ogg streams
carry such a field). -/
def legacyCoverCount : AudioContent → Nat
  | .oggVorbis f => f.coverart.length
  | .oggOpus f => f.coverart.length
  | _ => 0

/-- C3 (counterexample): on an Ogg file whose only embedded art is a legacy
`coverart` value, a successful `set_cover` leaves TWO picture-equivalent
structures — the new `metadata_block_picture` plus the untouched legacy
`coverart` — not exactly one with all pre-existing pictures removed. -/
theorem c3_ogg_legacy_counterexample :
    (set_cover oggLegacy rgbImage).2 = true ∧
    pictureCount oggLegacy.content = 1 ∧
    pictureCount (set_cover oggLegacy rgbImage).1.content = 2 := by decide

/-- C3 (amended): a successful `set_cover` on a well-formed file removes
all pre-existing pictures and leaves exactly one for MP3, FLAC and M4A; for
Ogg/Opus the `metadata_block_picture` field is replaced wholesale by the single
new picture but a legacy `coverart` field is NOT removed, so exactly
`1 + (number of legacy coverart values)` picture-equivalent structures
remain. -/
theorem c3_cover_unique (d : DiskFile) (k : FormatKind) (img : RawImage)
    (j : Jpeg) (hd : wellFormed d k) (hj : normalizeImage img = some j) :
    (set_cover d img).2 = true ∧
    pictureCount (set_cover d img).1.content
      = 1 + legacyCoverCount d.content := by
  obtain ⟨hext, hcontent⟩ := hd
  cases k <;> simp only [kindExt] at hext <;>
    cases hc : d.content <;> rw [hc] at hcontent <;>
    simp only [contentIs, Bool.false_eq_true] at hcontent <;>
    simp [set_cover, hj, hext, hc, mp3SetCover, flacSetCover, mp4SetCover,
      oggSetCover, pictureCount, legacyCoverCount, emptyId3, Nat.add_comm]

theorem c3_cover_unique_witness :
    (set_cover sampleMp3 rgbImage).2 = true ∧
    pictureCount (set_cover sampleMp3 rgbImage).1.content
      = 1 + legacyCoverCount sampleMp3.content :=
  c3_cover_unique sampleMp3 FormatKind.mp3 rgbImage ⟨600, 600, 90⟩
    ⟨by decide, by decide⟩ (by decide)

/-- Truthiness of the ID3 dictionary is absorbed by a picture query: when no
APIC frame exists both sides are false, and any APIC frame makes the
dictionary truthy. -/
theorem id3Truthy_and_any (t : Id3) (p : PictureBlock → Bool) :
    (id3Truthy t && t.apics.any p) = t.apics.any p := by
  cases ha : t.apics with
  | nil => simp
  | cons x xs => simp [id3Truthy, ha]

/-- C4: a `set_tag` of one field leaves the other four fields and the
has_cover status unchanged, as observed through `get_tags`.  This holds for
every file state and path — including files whose extension or content makes
the write fail, in which case the file is untouched. -/
theorem c4_write_frame (d : DiskFile) (fk : FieldKey) (v : String)
    (fk' : FieldKey) (hne : fk' ≠ fk) :
    (get_tags (set_tag d fk.tagName v).1).map (fun r => r.field fk')
      = (get_tags d).map (fun r => r.field fk') ∧
    (get_tags (set_tag d fk.tagName v).1).map TagRecord.has_cover
      = (get_tags d).map TagRecord.has_cover := by
  by_cases h1 : fileExtOf d.path = ".mp3"
  · cases hc : d.content with
    | mp3 f =>
      cases htags : f.tags <;> cases fk <;> cases fk' <;>
        simp_all [set_tag, get_tags, FieldKey.tagName, mp3SetTag, mp3TagsRec,
          TagRecord.field, id3Text, emptyId3, mp3HasCover, id3Truthy_and_any]
    | flac f => simp [set_tag, get_tags, h1, hc]
    | mp4 f => simp [set_tag, get_tags, h1, hc]
    | oggVorbis f => simp [set_tag, get_tags, h1, hc]
    | oggOpus f => simp [set_tag, get_tags, h1, hc]
    | other => simp [set_tag, get_tags, h1, hc]

  · by_cases h2 : fileExtOf d.path = ".flac"
    · cases hc : d.content with
      | flac f =>
        cases fk <;> cases fk' <;>
          simp_all [set_tag, get_tags, FieldKey.tagName, flacSetTag,
            flacTagsRec, TagRecord.field, firstVal]
      | mp3 f => simp [set_tag, get_tags, h1, h2, hc]
      | mp4 f => simp [set_tag, get_tags, h1, h2, hc]
      | oggVorbis f => simp [set_tag, get_tags, h1, h2, hc]
      | oggOpus f => simp [set_tag, get_tags, h1, h2, hc]
      | other => simp [set_tag, get_tags, h1, h2, hc]

    · by_cases h3 : fileExtOf d.path = ".m4a"
      · cases hc : d.content with
        | mp4 f =>
          cases fk <;> cases fk' <;>
            simp_all [set_tag, get_tags, FieldKey.tagName, mp4SetTag,
              mp4TagsRec, TagRecord.field, firstVal]
        | mp3 f => simp [set_tag, get_tags, h1, h2, h3, hc]
        | flac f => simp [set_tag, get_tags, h1, h2, h3, hc]
        | oggVorbis f => simp [set_tag, get_tags, h1, h2, h3, hc]
        | oggOpus f => simp [set_tag, get_tags, h1, h2, h3, hc]
        | other => simp [set_tag, get_tags, h1, h2, h3, hc]

      · by_cases h4 : fileExtOf d.path = ".ogg"
        · cases hc : d.content with
          | oggVorbis f =>
            cases fk <;> cases fk' <;>
              simp_all [set_tag, get_tags, FieldKey.tagName, oggTagsRec,
                TagRecord.field, firstVal, oggSetTag_title, oggSetTag_artist,
                oggSetTag_album, oggSetTag_year, oggSetTag_genre]
          | mp3 f => simp [set_tag, get_tags, h1, h2, h3, h4, hc]
          | flac f => simp [set_tag, get_tags, h1, h2, h3, h4, hc]
          | mp4 f => simp [set_tag, get_tags, h1, h2, h3, h4, hc]
          | oggOpus f => simp [set_tag, get_tags, h1, h2, h3, h4, hc]
          | other => simp [set_tag, get_tags, h1, h2, h3, h4, hc]

        · by_cases h5 : fileExtOf d.path = ".opus"
          · cases hc : d.content with
            | oggOpus f =>
              cases fk <;> cases fk' <;>
                simp_all [set_tag, get_tags, FieldKey.tagName, oggTagsRec,
                  TagRecord.field, firstVal, oggSetTag_title, oggSetTag_artist,
                  oggSetTag_album, oggSetTag_year, oggSetTag_genre]
            | mp3 f => simp [set_tag, get_tags, h1, h2, h3, h4, h5, hc]
            | flac f => simp [set_tag, get_tags, h1, h2, h3, h4, h5, hc]
            | mp4 f => simp [set_tag, get_tags, h1, h2, h3, h4, h5, hc]
            | oggVorbis f => simp [set_tag, get_tags, h1, h2, h3, h4, h5, hc]
            | other => simp [set_tag, get_tags, h1, h2, h3, h4, h5, hc]

          · simp [set_tag, get_tags, h1, h2, h3, h4, h5]

theorem c4_write_frame_witness :
    (get_tags (set_tag sampleFlac FieldKey.title.tagName "T").1).map
        (fun r => r.field FieldKey.genre)
      = (get_tags sampleFlac).map (fun r => r.field FieldKey.genre) ∧
    (get_tags (set_tag sampleFlac FieldKey.title.tagName "T").1).map
        TagRecord.has_cover
      = (get_tags sampleFlac).map TagRecord.has_cover :=
  c4_write_frame sampleFlac FieldKey.title "T" FieldKey.genre (by decide)

/-- For a tag name other than "year" whose lowercased form is a valid Vorbis
key, the Ogg write path stores SOME field and succeeds. -/
theorem oggSetTag_some_of_valid (f : OggFile) (tag v : String)
    (hy : tag ≠ "year") (hv : validVorbisKey (pyLower tag) = true) :
    ∃ f', oggSetTag f tag v = some f' := by
  unfold oggSetTag
  dsimp only
  rw [if_neg hy, hv]
  simp only [Bool.not_true]
  rw [if_neg (by decide : ¬(false = true))]
  repeat' split
  all_goals exact ⟨_, rfl⟩

/-- For a tag name other than "year" whose lowercased form is not a valid
Vorbis key, the Ogg write path raises before modifying anything. -/
theorem oggSetTag_none_of_invalid (f : OggFile) (tag v : String)
    (hy : tag ≠ "year") (hv : validVorbisKey (pyLower tag) = false) :
    oggSetTag f tag v = none := by
  unfold oggSetTag
  dsimp only
  rw [if_neg hy, hv]
  simp

/-- C5 (counterexample): `set_tag` with field name "composer" — outside the
closed field set — reports success (True) on a FLAC file instead of being
rejected, and on an Ogg file it reports success AND modifies the file (the
unknown name is stored as a custom comment field). -/
theorem c5_unknown_field_counterexample :
    (set_tag sampleFlac "composer" "X").2 = true ∧
    (set_tag oggLegacy "composer" "X").2 = true ∧
    (set_tag oggLegacy "composer" "X").1 ≠ oggLegacy := by decide

/-- C5 (amended): `set_tag` performs no field-name validation.  For a name
outside the closed set: MP3 writes no frame but still saves and returns True
(the observable tag state is unchanged); FLAC saves unchanged and returns
True; M4A hits a `KeyError` in its name map and returns False with the file
untouched; Ogg/Opus store the lowercased unknown name as a custom comment
field, returning True exactly when it is a valid Vorbis key and leaving the
file untouched when it is not. -/
theorem c5_unknown_field (d : DiskFile) (k : FormatKind) (tag v : String)
    (hd : wellFormed d k)
    (hunk : tag ∉ ["title", "artist", "album", "year", "genre"]) :
    (k = FormatKind.mp3 → (set_tag d tag v).2 = true ∧
      get_tags (set_tag d tag v).1 = get_tags d) ∧
    (k = FormatKind.flac → set_tag d tag v = (d, true)) ∧
    (k = FormatKind.m4a → set_tag d tag v = (d, false)) ∧
    ((k = FormatKind.ogg ∨ k = FormatKind.opus) →
      (set_tag d tag v).2 = validVorbisKey (pyLower tag) ∧
      ((set_tag d tag v).2 = false → (set_tag d tag v).1 = d)) := by
  obtain ⟨p, c⟩ := d
  obtain ⟨hext, hcontent⟩ := hd
  simp only [List.mem_cons, List.not_mem_nil, or_false, not_or] at hunk
  obtain ⟨n1, n2, n3, n4, n5⟩ := hunk
  cases k <;> simp only [kindExt] at hext
  case mp3 =>
    refine ⟨fun _ => ?_, ?_, ?_, ?_⟩
    case refine_2 => intro h; exact absurd h (by decide)
    case refine_3 => intro h; exact absurd h (by decide)
    case refine_4 => intro h; rcases h with h | h <;> exact absurd h (by decide)
    cases hc : c with
    | mp3 f =>
      cases htags : f.tags <;>
        simp_all [set_tag, get_tags, mp3SetTag, mp3TagsRec, emptyId3,
          mp3HasCover, id3Truthy]
    | flac f => simp [contentIs, hc] at hcontent
    | mp4 f => simp [contentIs, hc] at hcontent
    | oggVorbis f => simp [contentIs, hc] at hcontent
    | oggOpus f => simp [contentIs, hc] at hcontent
    | other => simp [contentIs, hc] at hcontent
  case flac =>
    refine ⟨?_, fun _ => ?_, ?_, ?_⟩
    case refine_1 => intro h; exact absurd h (by decide)
    case refine_3 => intro h; exact absurd h (by decide)
    case refine_4 => intro h; rcases h with h | h <;> exact absurd h (by decide)
    cases hc : c with
    | flac f =>
      simp_all [set_tag, flacSetTag]
    | mp3 f => simp [contentIs, hc] at hcontent
    | mp4 f => simp [contentIs, hc] at hcontent
    | oggVorbis f => simp [contentIs, hc] at hcontent
    | oggOpus f => simp [contentIs, hc] at hcontent
    | other => simp [contentIs, hc] at hcontent
  case m4a =>
    refine ⟨?_, ?_, fun _ => ?_, ?_⟩
    case refine_1 => intro h; exact absurd h (by decide)
    case refine_2 => intro h; exact absurd h (by decide)
    case refine_4 => intro h; rcases h with h | h <;> exact absurd h (by decide)
    cases hc : c with
    | mp4 f =>
      simp_all [set_tag, mp4SetTag]
    | mp3 f => simp [contentIs, hc] at hcontent
    | flac f => simp [contentIs, hc] at hcontent
    | oggVorbis f => simp [contentIs, hc] at hcontent
    | oggOpus f => simp [contentIs, hc] at hcontent
    | other => simp [contentIs, hc] at hcontent
  case ogg =>
    refine ⟨?_, ?_, ?_, fun _ => ?_⟩
    case refine_1 => intro h; exact absurd h (by decide)
    case refine_2 => intro h; exact absurd h (by decide)
    case refine_3 => intro h; exact absurd h (by decide)
    cases hc : c with
    | oggVorbis f =>
      by_cases hv : validVorbisKey (pyLower tag) = true
      · obtain ⟨f', hf'⟩ := oggSetTag_some_of_valid f tag v n4 hv
        simp [set_tag, hext, hc, hf', hv]
      · have hvf : validVorbisKey (pyLower tag) = false := by
          revert hv; cases validVorbisKey (pyLower tag) <;> simp
        simp [set_tag, hext, hc, oggSetTag_none_of_invalid f tag v n4 hvf, hvf]
    | mp3 f => simp [contentIs, hc] at hcontent
    | flac f => simp [contentIs, hc] at hcontent
    | mp4 f => simp [contentIs, hc] at hcontent
    | oggOpus f => simp [contentIs, hc] at hcontent
    | other => simp [contentIs, hc] at hcontent
  case opus =>
    refine ⟨?_, ?_, ?_, fun _ => ?_⟩
    case refine_1 => intro h; exact absurd h (by decide)
    case refine_2 => intro h; exact absurd h (by decide)
    case refine_3 => intro h; exact absurd h (by decide)
    cases hc : c with
    | oggOpus f =>
      by_cases hv : validVorbisKey (pyLower tag) = true
      · obtain ⟨f', hf'⟩ := oggSetTag_some_of_valid f tag v n4 hv
        simp [set_tag, hext, hc, hf', hv]
      · have hvf : validVorbisKey (pyLower tag) = false := by
          revert hv; cases validVorbisKey (pyLower tag) <;> simp
        simp [set_tag, hext, hc, oggSetTag_none_of_invalid f tag v n4 hvf, hvf]
    | mp3 f => simp [contentIs, hc] at hcontent
    | flac f => simp [contentIs, hc] at hcontent
    | mp4 f => simp [contentIs, hc] at hcontent
    | oggVorbis f => simp [contentIs, hc] at hcontent
    | other => simp [contentIs, hc] at hcontent

theorem c5_unknown_field_witness :
    set_tag sampleFlac "composer" "X" = (sampleFlac, true) :=
  (c5_unknown_field sampleFlac FormatKind.flac "composer" "X"
    ⟨by decide, by decide⟩ (by decide)).2.1 rfl

/-- C6 (code-bug exhibit): a decodable image whose mode is "RGBA" is NOT
normalized successfully: the mode check (`if img.mode not in ("RGB", "RGBA")`)
keeps the alpha channel, and the JPEG encoder then rejects mode "RGBA", so
`set_cover` returns False without any codec write — although the input was
decodable.  The last conjunct shows a decodable palette-mode image of the same
size normalizing fine (it IS converted to "RGB"), isolating the defect to the
kept-RGBA path. -/
theorem c6_rgba_normalization_fails :
    rgbaImage.decodable = true ∧
    normalizeImage rgbaImage = none ∧
    set_cover sampleFlac rgbaImage = (sampleFlac, false) ∧
    normalizeImage ⟨true, "P", 600, 600⟩ = some ⟨600, 600, 90⟩ := by decide

/-- C8: format detection is a pure, case-insensitive function of the
filename's extension over the fixed five-element set: "song.MP3" and
"song.mp3" both detect as MP3, "song.wav" is rejected, any two filenames with
the same lowercased extension detect identically, and detection fails exactly
when the lowercased extension is outside the supported list (so no parse is
attempted for it). -/
theorem c8_detect_case_insensitive :
    detect "song.MP3" = some FormatKind.mp3 ∧
    detect "song.mp3" = some FormatKind.mp3 ∧
    detect "song.wav" = none ∧
    (∀ f g : String, fileExtOf f = fileExtOf g → detect f = detect g) ∧
    (∀ f : String, detect f = none ↔ fileExtOf f ∉ supportedExts) := by
  refine ⟨by decide, by decide, by decide, ?_, ?_⟩
  · intro f g h
    unfold detect
    rw [h]
  · intro f
    simp only [detect, supportedExts, List.mem_cons, List.not_mem_nil,
      or_false, not_or]
    split_ifs with h1 h2 h3 h4 h5 <;> simp_all

theorem c8_detect_case_insensitive_witness :
    detect "a/B.OgG" = detect "c.ogg" ∧
    (detect "x.aiff" = none ↔ fileExtOf "x.aiff" ∉ supportedExts) :=
  ⟨c8_detect_case_insensitive.2.2.2.1 "a/B.OgG" "c.ogg" (by decide),
   c8_detect_case_insensitive.2.2.2.2 "x.aiff"⟩

/-- C9 (counterexample): on a fresh MP3 with no ID3 container, writing
year "Midnight" reports success, but reading that field back yields "" (the
empty timestamp rendering), not the written value — so the claim's "read
returns the written value for that field" fails for the year field. -/
theorem c9_fresh_mp3_year_counterexample :
    (set_tag sampleMp3 "year" "Midnight").2 = true ∧
    (get_tags (set_tag sampleMp3 "year" "Midnight").1).map TagRecord.year
      = some (some "") ∧
    (get_tags (set_tag sampleMp3 "year" "Midnight").1).map TagRecord.year
      ≠ some (some "Midnight") := by decide

/-- C9 (amended): on an MP3 file with no ID3 container, `set_tag` of any
field succeeds and creates the container; a subsequent `get_tags` returns the
written value for that field — with the year going through the ID3 timestamp
normalization — the "Not set" sentinel for every field not written, and
has_cover = false. -/
theorem c9_fresh_mp3_first_write (d : DiskFile) (fk : FieldKey) (v : String)
    (hext : fileExtOf d.path = ".mp3")
    (hc : d.content = AudioContent.mp3 ⟨none⟩) :
    (set_tag d fk.tagName v).2 = true ∧
    (∃ t : Id3, (set_tag d fk.tagName v).1.content
      = AudioContent.mp3 ⟨some t⟩) ∧
    (get_tags (set_tag d fk.tagName v).1).map (fun r => r.field fk)
      = some (some (storedFieldValue FormatKind.mp3 fk v)) ∧
    (∀ fk' : FieldKey, fk' ≠ fk →
      (get_tags (set_tag d fk.tagName v).1).map (fun r => r.field fk')
        = some (some "Not set")) ∧
    (get_tags (set_tag d fk.tagName v).1).map TagRecord.has_cover
      = some (some false) := by
  refine ⟨?_, ?_, ?_, ?_, ?_⟩
  · cases fk <;> simp [set_tag, hext, hc, FieldKey.tagName]
  · cases fk <;>
      simp only [set_tag, hext, hc, FieldKey.tagName, mp3SetTag, emptyId3] <;>
      exact ⟨_, rfl⟩
  · cases fk <;>
      simp [set_tag, get_tags, hext, hc, FieldKey.tagName, mp3SetTag,
        mp3TagsRec, TagRecord.field, id3Text, emptyId3, storedFieldValue]
  · intro fk' hne
    cases fk <;> cases fk' <;>
      simp_all [set_tag, get_tags, FieldKey.tagName, mp3SetTag, mp3TagsRec,
        TagRecord.field, id3Text, emptyId3]
  · cases fk <;>
      simp [set_tag, get_tags, hext, hc, FieldKey.tagName, mp3SetTag,
        mp3TagsRec, mp3HasCover, emptyId3, id3Truthy]

theorem c9_fresh_mp3_first_write_witness :
    (set_tag sampleMp3 FieldKey.title.tagName "Midnight").2 = true ∧
    (∃ t : Id3, (set_tag sampleMp3 FieldKey.title.tagName "Midnight").1.content
      = AudioContent.mp3 ⟨some t⟩) ∧
    (get_tags (set_tag sampleMp3 FieldKey.title.tagName "Midnight").1).map
        (fun r => r.field FieldKey.title)
      = some (some (storedFieldValue FormatKind.mp3 FieldKey.title "Midnight")) ∧
    (∀ fk' : FieldKey, fk' ≠ FieldKey.title →
      (get_tags (set_tag sampleMp3 FieldKey.title.tagName "Midnight").1).map
          (fun r => r.field fk')
        = some (some "Not set")) ∧
    (get_tags (set_tag sampleMp3 FieldKey.title.tagName "Midnight").1).map
        TagRecord.has_cover
      = some (some false) :=
  c9_fresh_mp3_first_write sampleMp3 FieldKey.title "Midnight"
    (by decide) (by decide)

/-- C10 (counterexample): on a path with an unsupported extension,
`set_cover` with undecodable image bytes returns False — the image normalizer
runs before the extension dispatch — so it is not true that all three
operations uniformly report success on unsupported extensions. -/
theorem c10_undecodable_counterexample :
    fileExtOf wavFile.path ∉ supportedExts ∧
    set_cover wavFile badImage = (wavFile, false) := by decide

/-- C10 (amended): when the path's lowercased extension is outside the
supported set, `get_tags` returns the empty record (no field entries and no
has_cover entry — not the error result `none`), `set_tag` reports success
without modifying the file, and `set_cover` reports success without modifying
the file PROVIDED the image normalizes; an image failing normalization yields
False regardless of the extension. -/
theorem c10_unknown_ext_noop (d : DiskFile) (tag v : String) (img : RawImage)
    (j : Jpeg) (hext : fileExtOf d.path ∉ supportedExts)
    (hj : normalizeImage img = some j) :
    get_tags d = some emptyRecord ∧
    set_tag d tag v = (d, true) ∧
    set_cover d img = (d, true) := by
  simp only [supportedExts, List.mem_cons, List.not_mem_nil, or_false,
    not_or] at hext
  obtain ⟨e1, e2, e3, e4, e5⟩ := hext
  exact ⟨by simp [get_tags, e1, e2, e3, e4, e5],
    by simp [set_tag, e1, e2, e3, e4, e5],
    by simp [set_cover, hj, e1, e2, e3, e4, e5]⟩

theorem c10_unknown_ext_noop_witness :
    get_tags ⟨"track.aiff", AudioContent.other⟩ = some emptyRecord ∧
    set_tag ⟨"track.aiff", AudioContent.other⟩ "title" "T"
      = (⟨"track.aiff", AudioContent.other⟩, true) ∧
    set_cover ⟨"track.aiff", AudioContent.other⟩ rgbImage
      = (⟨"track.aiff", AudioContent.other⟩, true) :=
  c10_unknown_ext_noop ⟨"track.aiff", AudioContent.other⟩ "title" "T"
    rgbImage ⟨600, 600, 90⟩ (by decide) (by decide)
